import Mathlib

/-!
Verification of the feature-tracking core of `featuretracker.py` (cvguipy).

The development shallowly embeds the program: `Point` and `Track` mirror the
two data classes, `TrackerState` carries the fields of `featureTrackerPlayer`
that the tracking logic reads and writes (`tracks`, `lastFrameDrawn`,
`lastDetectionFrame`, `detectionInterval`, `maxTrackLength`), and
`trackFeatures` / `processFrame` mirror the per-frame control flow of
`featureTrackerPlayer.trackFeatures` and the `lastFrameDrawn` update at the
end of `drawExtra`.

Image coordinates are Python floats, i.e. real-valued; they are embedded as
an arbitrary linearly ordered ring `α` (so both `ℚ` and `ℤ` instantiate the
development; concrete evaluations use `α := ℤ`).  Frame indices are `Int`,
with the source's literal `-1` sentinel for "never".  The external OpenCV
capabilities (optical flow, corner detection) are modelled as per-frame
oracle inputs in `FrameInputs`; a `none` result stands for the capability
raising an exception, which the Python code does not catch, so the step
returns the error together with whatever state mutations had already been
performed when it was raised.

Display-only state of the source (`color`, random colors, `smoothingWindow`,
`smoothedVel`, drawing) is not part of the tracking logic and is not
modelled; `Point.norm2`, a square root of `norm2Squared`, is likewise used
only by drawing code.
-/

namespace FeatureTracker

variable {α : Type} [LinearOrderedRing α]

/-- `Point` from the source: a mutable pair of coordinates with operator
overloads.  `__eq__` is field equality, matching the derived `DecidableEq`. -/
structure Point (α : Type) where
  x : α
  y : α
deriving DecidableEq, Repr

/-- `Point.__add__`. -/
def Point.add (p q : Point α) : Point α := ⟨p.x + q.x, p.y + q.y⟩

/-- `Point.__sub__`. -/
def Point.sub (p q : Point α) : Point α := ⟨p.x - q.x, p.y - q.y⟩

/-- `Point.__mul__` (scaling by a scalar). -/
def Point.mul (p : Point α) (s : α) : Point α := ⟨p.x * s, p.y * s⟩

/-- `Point.__div__` (scalar division; unused by the tracking logic). -/
def Point.div [Div α] (p : Point α) (s : α) : Point α := ⟨p.x / s, p.y / s⟩

/-- `Point.norm2Squared`: `x**2 + y**2`. -/
def Point.norm2Squared (p : Point α) : α := p.x ^ 2 + p.y ^ 2

/-- The number of parameters in the source's definition
`def __neg__(self, p):` — it takes `self` AND a spurious required
parameter `p` (whose value the body never uses). -/
def negParamCount : Nat := 2

/-- The body of `Point.__neg__` as written: `Point(-self.x, -self.y)`,
ignoring the extra parameter `p`. -/
def Point.negBody (self : Point α) (p : Point α) : Point α := ⟨-self.x, -self.y⟩

/-- Evaluating the unary expression `-p` in Python: the interpreter calls
`type(p).__neg__(p)`, supplying exactly one argument.  If `__neg__` declares
any other number of parameters the call raises `TypeError` before the body
runs; otherwise it returns the body's value. -/
def Point.negUnary (self : Point α) : Option (Point α) :=
  if negParamCount = 1 then some (Point.negBody self self) else none

/-- `Track` from the source: an id plus a trajectory, its derived velocity
sequence, and the `lastVel`/`lastPos` convenience fields (initialised to
`None`). -/
structure Track (α : Type) where
  trackId : Nat
  points : List (Point α)
  velocity : List (Point α)
  lastVel : Option (Point α)
  lastPos : Option (Point α)
deriving DecidableEq, Repr

/-- `Track.__init__(trackId)`: empty `points` and `velocity`,
`lastVel = lastPos = None`. -/
def Track.init (trackId : Nat) : Track α :=
  { trackId := trackId, points := [], velocity := [], lastVel := none, lastPos := none }

/-- `Track.numPoints`: `len(self.points)`. -/
def Track.numPoints (t : Track α) : Nat := t.points.length

/-- `Track.addPoint(x, y)`: sets `lastPos`, and when a previous point exists
computes `lastVel = lastPos - points[-1]` and appends it to `velocity`,
then appends `lastPos` to `points`. -/
def Track.addPoint (t : Track α) (x y : α) : Track α :=
  let p : Point α := ⟨x, y⟩
  match t.points.getLast? with
  | some prev =>
      let v := p.sub prev
      { t with lastPos := some p, lastVel := some v,
               velocity := t.velocity ++ [v], points := t.points ++ [p] }
  | none =>
      { t with lastPos := some p, points := t.points ++ [p] }

/-- `Track.removeOldest`: `self.points.pop(0)` — drops the front point and
touches nothing else (in particular the `velocity` list is left alone).
The source only invokes it on tracks with at least two points, where
`List.tail` agrees with `pop(0)`. -/
def Track.removeOldest (t : Track α) : Track α :=
  { t with points := t.points.tail }

/-- `points[-1]` of a track.  Every track the tracker holds has a nonempty
trajectory; the default is never read under that invariant. -/
def Track.lastPoint (t : Track α) : Point α :=
  (t.points.getLast?).getD ⟨0, 0⟩

/-- The fields of `featureTrackerPlayer` that the tracking logic uses.
`lastFrameDrawn` and `lastDetectionFrame` are initialised to `-1` in the
source; `maxTrackLength` is `np.inf` by default, embedded as `Option Nat`
with `none` for the unbounded default. -/
structure TrackerState (α : Type) where
  tracks : List (Track α)
  lastFrameDrawn : Int
  lastDetectionFrame : Int
  detectionInterval : Int
  maxTrackLength : Option Nat
deriving DecidableEq, Repr

/-- The state right after `featureTrackerPlayer.__init__`. -/
def TrackerState.init (detectionInterval : Int) : TrackerState α :=
  { tracks := [], lastFrameDrawn := -1, lastDetectionFrame := -1,
    detectionInterval := detectionInterval, maxTrackLength := none }

/-- `featureTrackerPlayer.resetTracks`: `self.tracks = []`. -/
def resetTracks (s : TrackerState α) : TrackerState α :=
  { s with tracks := [] }

/-- The discontinuity test of `trackFeatures`:
`self.lastFrameDrawn == -1 or self.lastFrameDrawn > self.posFrames or
(self.posFrames - self.lastFrameDrawn) > 1`. -/
def discontinuityCheck (lastFrameDrawn posFrames : Int) : Bool :=
  lastFrameDrawn == -1 || decide (lastFrameDrawn > posFrames)
    || decide (posFrames - lastFrameDrawn > 1)

/-- The re-detection test of `trackFeatures`:
`self.lastDetectionFrame == -1 or
(self.posFrames - self.lastDetectionFrame) >= self.detectionInterval`. -/
def shouldDetect (lastDetectionFrame posFrames interval : Int) : Bool :=
  lastDetectionFrame == -1 || decide (posFrames - lastDetectionFrame ≥ interval)

/-- The spawning loop of `getNewTracks`: for each corner `(x, y)` in order,
`tid = len(self.tracks)`, build `Track(tid)`, `addPoint(x, y)`, and append
it to `self.tracks`.  The id of each spawned track is the length of the
track list at the moment it is appended. -/
def spawnTracks (tracks : List (Track α)) (cs : List (α × α)) : List (Track α) :=
  cs.foldl (fun acc c => acc ++ [(Track.init acc.length).addPoint c.1 c.2]) tracks

/-- The spawning loop re-expressed with an explicit starting id: the tracks
freshly created from corners `cs` when the registry already holds `n`
tracks. -/
def spawnFrom (n : Nat) : List (α × α) → List (Track α)
  | [] => []
  | c :: cs => (Track.init n).addPoint c.1 c.2 :: spawnFrom (n + 1) cs

/-- `featureTrackerPlayer.getNewTracks`, with the detection capability's
result passed in (`none` models `cv2.goodFeaturesToTrack` returning `None`):
spawn one track per corner, then unconditionally record
`self.lastDetectionFrame = self.posFrames`. -/
def getNewTracks (s : TrackerState α) (corners : Option (List (α × α)))
    (posFrames : Int) : TrackerState α :=
  let s1 := match corners with
    | none => s
    | some cs => { s with tracks := spawnTracks s.tracks cs }
  { s1 with lastDetectionFrame := posFrames }

/-- The round-trip discrepancy of one point pair, from
`d = abs(p0 - p0r).reshape(-1, 2).max(-1)`: the larger of the per-axis
absolute differences. -/
def discrepancy (p0 p0r : Point α) : α := max |p0.x - p0r.x| |p0.y - p0r.y|

/-- `goodTracks = d < 1`, pointwise over the zipped source and round-trip
points.  The success flags returned by the optical-flow capability do not
enter this computation. -/
def goodFlags (p0 p0r : List (Point α)) : List Bool :=
  List.zipWith (fun a b => decide (discrepancy a b < 1)) p0 p0r

/-- Lines 213–215 of the source, for one kept track: `tr.addPoint(x, y)`
followed by `tr.removeOldest()` when `tr.numPoints() > self.maxTrackLength`
(with the default `maxTrackLength = np.inf`, the comparison is never
true). -/
def extendAndTrim (maxLen : Option Nat) (t : Track α) (p : Point α) : Track α :=
  match maxLen with
  | none => t.addPoint p.x p.y
  | some m =>
      if (t.addPoint p.x p.y).numPoints > m then (t.addPoint p.x p.y).removeOldest
      else t.addPoint p.x p.y

/-- The `newTracks` loop of `trackFeatures`: iterate over
`zip(self.tracks, p1, goodTracks)`, skip entries whose flag is false, extend
and trim the rest, and collect them in order. -/
def extendLoop (maxLen : Option Nat) : List (Track α × (Point α × Bool)) → List (Track α)
  | [] => []
  | (tr, p, g) :: rest =>
      if g then extendAndTrim maxLen tr p :: extendLoop maxLen rest
      else extendLoop maxLen rest

/-- Failure of an external OpenCV capability (an uncaught exception in the
source). -/
inductive CapErr where
  | capabilityFailure
deriving DecidableEq, Repr

/-- The per-frame inputs of one `trackFeatures` call: the frame position
`self.posFrames` and the results of the three external capability calls.
`fwdResult = none` models `calcOpticalFlowPyrLK` raising on the forward
call; each forward entry carries the per-point status flag `st`.
`bwdResult = none` models the backward call raising.  `corners = none`
models `goodFeaturesToTrack` raising, while `corners = some none` models it
returning `None` (no candidates). -/
structure FrameInputs (α : Type) where
  posFrames : Int
  fwdResult : Option (List (Point α × Bool))
  bwdResult : Option (List (Point α))
  corners : Option (Option (List (α × α)))
deriving Repr

/-- The reset branch at the top of `trackFeatures`. -/
def resetPhase (s : TrackerState α) (posFrames : Int) : TrackerState α :=
  if discontinuityCheck s.lastFrameDrawn posFrames then resetTracks s else s

/-- The body of the `newTracks` computation of `trackFeatures` for given
optical-flow results: `p0` is the tracks' last points, `p1` the forward
estimates (the status flags `st` of the forward result are dropped by
`Prod.fst` and never read), `good` the round-trip flags. -/
def keptTracks (s : TrackerState α) (fwd : List (Point α × Bool))
    (p0r : List (Point α)) : List (Track α) :=
  extendLoop s.maxTrackLength
    (s.tracks.zip ((fwd.map Prod.fst).zip (goodFlags (s.tracks.map Track.lastPoint) p0r)))

/-- The `if len(self.tracks) > 0` block of `trackFeatures`: build `p0` from
the tracks' last points, run the two optical-flow calls, compute the
round-trip flags, and replace `self.tracks` by the kept, extended tracks.
A capability failure aborts with the state as mutated so far (nothing has
been mutated at either call site). -/
def extendPhase (s : TrackerState α) (inp : FrameInputs α) :
    Option CapErr × TrackerState α :=
  if s.tracks.length > 0 then
    match inp.fwdResult with
    | none => (some .capabilityFailure, s)
    | some fwd =>
        match inp.bwdResult with
        | none => (some .capabilityFailure, s)
        | some p0r => (none, { s with tracks := keptTracks s fwd p0r })
  else (none, s)

/-- The re-detection branch at the bottom of `trackFeatures`. -/
def detectPhase (s : TrackerState α) (inp : FrameInputs α) :
    Option CapErr × TrackerState α :=
  if shouldDetect s.lastDetectionFrame inp.posFrames s.detectionInterval then
    match inp.corners with
    | none => (some .capabilityFailure, s)
    | some cs => (none, getNewTracks s cs inp.posFrames)
  else (none, s)

/-- `featureTrackerPlayer.trackFeatures`: discontinuity reset, extension of
live tracks, then scheduled re-detection.  An error from a capability
propagates immediately, carrying the state as mutated up to that moment. -/
def trackFeatures (s : TrackerState α) (inp : FrameInputs α) :
    Option CapErr × TrackerState α :=
  let s1 := resetPhase s inp.posFrames
  match extendPhase s1 inp with
  | (some e, s2) => (some e, s2)
  | (none, s2) => detectPhase s2 inp

/-- One full frame as driven by `drawExtra`: `trackFeatures`, then (only
when it did not raise) `self.lastFrameDrawn = self.posFrames`. -/
def processFrame (s : TrackerState α) (inp : FrameInputs α) :
    Option CapErr × TrackerState α :=
  match trackFeatures s inp with
  | (some e, s1) => (some e, s1)
  | (none, s1) => (none, { s1 with lastFrameDrawn := inp.posFrames })

/-- Repeated extension of a single track by `addPoint`, one call per
coordinate pair, as performed by the per-frame extension step over the
frames of a track's life. -/
def Track.extendAll (t : Track α) (ops : List (α × α)) : Track α :=
  ops.foldl (fun a c => a.addPoint c.1 c.2) t

/-- A registry-level operation: a detection cycle (`getNewTracks` with the
corners the capability returned, at some frame) or a wholesale reset
(`resetTracks`). -/
inductive RegOp (α : Type) where
  | spawnBatch (cs : List (α × α)) (frame : Int)
  | resetAll
deriving Repr

/-- Run a sequence of registry operations. -/
def applyRegOps (s : TrackerState α) : List (RegOp α) → TrackerState α
  | [] => s
  | RegOp.spawnBatch cs f :: ops => applyRegOps (getNewTracks s (some cs) f) ops
  | RegOp.resetAll :: ops => applyRegOps (resetTracks s) ops

/-- The scheduler's `lastDetectionFrame` after processing the consecutive
frames `0, 1, …, n-1`, starting from the source's initial `-1` ("never"):
each frame whose `shouldDetect` test passes records itself, exactly as
`getNewTracks` records `self.lastDetectionFrame = self.posFrames`. -/
def schedState (interval : Int) : Nat → Int
  | 0 => -1
  | n + 1 => if shouldDetect (schedState interval n) n interval then (n : Int)
             else schedState interval n

/-- Whether the re-detection test passes at frame `n` after the consecutive
frames `0, …, n-1` have been processed. -/
def schedFires (interval : Int) (n : Nat) : Bool :=
  shouldDetect (schedState interval n) n interval

/-! ### Basic lemmas about the embedded operations -/

theorem Track.addPoint_points (t : Track α) (x y : α) :
    (t.addPoint x y).points = t.points ++ [⟨x, y⟩] := by
  unfold Track.addPoint
  cases t.points.getLast? <;> rfl

theorem Track.addPoint_trackId (t : Track α) (x y : α) :
    (t.addPoint x y).trackId = t.trackId := by
  unfold Track.addPoint
  cases t.points.getLast? <;> rfl

theorem Track.addPoint_velocity_length (t : Track α) (x y : α) (h : t.points ≠ []) :
    (t.addPoint x y).velocity.length = t.velocity.length + 1 := by
  unfold Track.addPoint
  cases hg : t.points.getLast? with
  | none => exact absurd (List.getLast?_eq_none_iff.mp hg) h
  | some prev => simp

theorem Track.removeOldest_velocity (t : Track α) :
    t.removeOldest.velocity = t.velocity := rfl

theorem Track.removeOldest_points (t : Track α) :
    t.removeOldest.points = t.points.tail := rfl

theorem Track.removeOldest_trackId (t : Track α) :
    t.removeOldest.trackId = t.trackId := rfl

theorem resetTracks_lastFrameDrawn (s : TrackerState α) :
    (resetTracks s).lastFrameDrawn = s.lastFrameDrawn := rfl

theorem extendAndTrim_trackId (m : Option Nat) (t : Track α) (p : Point α) :
    (extendAndTrim m t p).trackId = t.trackId := by
  unfold extendAndTrim
  cases m with
  | none => exact Track.addPoint_trackId t p.x p.y
  | some k =>
      dsimp only
      split
      · rw [Track.removeOldest_trackId, Track.addPoint_trackId]
      · exact Track.addPoint_trackId t p.x p.y

/-- With `interval = 5`, after processing frames `0, …, n`, the recorded
detection frame is the largest multiple of `5` not exceeding `n`. -/
theorem schedState_eq (n : Nat) : schedState 5 (n + 1) = ((5 * (n / 5) : Nat) : Int) := by
  induction n with
  | zero => decide
  | succ n ih =>
      rw [schedState, ih]
      simp only [shouldDetect, Bool.or_eq_true, beq_iff_eq, decide_eq_true_eq]
      split
      · omega
      · omega

/-! ### The claims -/

/-- C5: the re-detection decision is true iff `lastDetectionFrame` is the
`-1` sentinel or `posFrames - lastDetectionFrame ≥ interval`; with
`interval = 5`, consecutive frames from the initial sentinel state fire
detection exactly at the multiples of 5. -/
theorem C5_shouldDetect_cadence :
    (∀ last posFrames interval : Int,
        shouldDetect last posFrames interval = true
          ↔ (last = -1 ∨ posFrames - last ≥ interval))
    ∧ (∀ n : Nat, schedFires 5 n = true ↔ n % 5 = 0) := by
  constructor
  · intro last p i
    simp [shouldDetect]
  · intro n
    cases n with
    | zero => decide
    | succ n =>
        unfold schedFires
        rw [schedState_eq]
        simp only [shouldDetect, Bool.or_eq_true, beq_iff_eq, decide_eq_true_eq]
        omega

/-- Witness for C5 at a concrete frame: detection fires at frame 10. -/
theorem C5_shouldDetect_cadence_witness : schedFires 5 10 = true :=
  (C5_shouldDetect_cadence.2 10).mpr (by decide)

/-- C10: `getNewTracks` records `lastDetectionFrame = posFrames` even when
the detection capability returns no candidates (`None` or an empty corner
list), spawning nothing, so the next detection only fires once a full
interval has passed since this empty cycle. -/
theorem C10_empty_detection_updates (s : TrackerState α) (p f : Int) (hp : 0 ≤ p) :
    (getNewTracks s none p).lastDetectionFrame = p
    ∧ (getNewTracks s none p).tracks = s.tracks
    ∧ (getNewTracks s (some []) p).lastDetectionFrame = p
    ∧ (getNewTracks s (some []) p).tracks = s.tracks
    ∧ shouldDetect (getNewTracks s none p).lastDetectionFrame f s.detectionInterval
        = decide (f - p ≥ s.detectionInterval) := by
  refine ⟨rfl, rfl, rfl, rfl, ?_⟩
  show shouldDetect p f s.detectionInterval = _
  unfold shouldDetect
  have hne : (p == -1) = false := by
    simp only [beq_eq_false_iff_ne, ne_eq]
    omega
  rw [hne, Bool.false_or]

/-- Witness for C10: after an empty detection at frame 3 with interval 5,
the decision at frame 8 is exactly `8 - 3 ≥ 5`. -/
theorem C10_empty_detection_updates_witness :
    shouldDetect ((getNewTracks (TrackerState.init 5 : TrackerState Int) none 3).lastDetectionFrame)
        8 (TrackerState.init 5 : TrackerState Int).detectionInterval
      = decide ((8 : Int) - 3 ≥ 5) :=
  (C10_empty_detection_updates (TrackerState.init 5 : TrackerState Int) 3 8 (by decide)).2.2.2.2

/-- C7: the binary `Point` operations are total by construction, but unary
negation is not: the source defines `__neg__` with a spurious required
second parameter, so evaluating `-p` raises `TypeError` for every `Point`
(modelled as `none`), even though the body, had it been reachable, returns
`(-x, -y)`. -/
theorem C7_negation_raises :
    Point.negUnary (⟨1, 2⟩ : Point Int) = none
    ∧ negParamCount = 2
    ∧ Point.negBody (⟨1, 2⟩ : Point Int) ⟨1, 2⟩ = ⟨-1, -2⟩ := by decide

/-- C6: when an extension pushes a track's point count over `maxTrackLength`,
exactly one point is removed, namely the oldest (front) one, and the order
of the remainder is preserved (`tail` of the extended trajectory);
otherwise, and always under the default unbounded `maxTrackLength`
(`none`, modelling `np.inf`), the extended track is returned untouched. -/
theorem C6_trim_behavior (t : Track α) (x y : α) (m : Nat) :
    ((t.addPoint x y).numPoints > m →
        (extendAndTrim (some m) t ⟨x, y⟩).points = (t.addPoint x y).points.tail
        ∧ (extendAndTrim (some m) t ⟨x, y⟩).points.length + 1
            = (t.addPoint x y).points.length)
    ∧ (¬ (t.addPoint x y).numPoints > m → extendAndTrim (some m) t ⟨x, y⟩ = t.addPoint x y)
    ∧ extendAndTrim none t ⟨x, y⟩ = t.addPoint x y := by
  refine ⟨?_, ?_, rfl⟩
  · intro h
    unfold extendAndTrim
    dsimp only
    rw [if_pos h]
    refine ⟨rfl, ?_⟩
    rw [Track.removeOldest_points, Track.addPoint_points]
    simp
  · intro h
    unfold extendAndTrim
    dsimp only
    rw [if_neg h]

/-- Witness for C6 at a concrete track: a two-point track trimmed to
`maxLength = 1` loses exactly its front point; unbounded keeps both. -/
theorem C6_trim_behavior_witness :
    (extendAndTrim (some 1) ((Track.init 0).addPoint 0 0 : Track Int) ⟨1, 1⟩).points
        = (((Track.init 0).addPoint 0 0 : Track Int).addPoint 1 1).points.tail
    ∧ extendAndTrim none ((Track.init 0).addPoint 0 0 : Track Int) ⟨1, 1⟩
        = ((Track.init 0).addPoint 0 0 : Track Int).addPoint 1 1 :=
  ⟨((C6_trim_behavior ((Track.init 0).addPoint 0 0 : Track Int) 1 1 1).1 (by decide)).1,
   (C6_trim_behavior ((Track.init 0).addPoint 0 0 : Track Int) 1 1 1).2.2⟩

/-- C4: the registry is cleared exactly when the frame is the first ever
processed (`lastFrameDrawn = -1`), the position jumped backward, or it
skipped forward by more than one frame; after such a reset the frame's
final track list is computed from an empty registry, so every pre-jump
track is gone no matter what the motion estimates said. -/
theorem C4_reset_on_discontinuity (s : TrackerState α) (inp : FrameInputs α) :
    (discontinuityCheck s.lastFrameDrawn inp.posFrames = true
        ↔ (s.lastFrameDrawn = -1 ∨ inp.posFrames < s.lastFrameDrawn
            ∨ inp.posFrames - s.lastFrameDrawn > 1))
    ∧ (discontinuityCheck s.lastFrameDrawn inp.posFrames = true →
        (resetPhase s inp.posFrames).tracks = []
        ∧ (trackFeatures s inp).2.tracks = (trackFeatures (resetTracks s) inp).2.tracks)
    ∧ (discontinuityCheck s.lastFrameDrawn inp.posFrames = false →
        resetPhase s inp.posFrames = s) := by
  refine ⟨?_, ?_, ?_⟩
  · simp only [discontinuityCheck, Bool.or_eq_true, beq_iff_eq, decide_eq_true_eq]
    omega
  · intro h
    have h1 : resetPhase s inp.posFrames = resetTracks s := by
      unfold resetPhase
      rw [if_pos h]
    have h2 : resetPhase (resetTracks s) inp.posFrames = resetTracks s := by
      unfold resetPhase
      rw [resetTracks_lastFrameDrawn]  -- align the condition with `h`
      rw [if_pos h]
      unfold resetTracks
      rfl
    refine ⟨by rw [h1]; rfl, ?_⟩
    unfold trackFeatures
    rw [h1, h2]
  · intro h
    unfold resetPhase
    rw [if_neg (by simp [h])]

/-- Witness for C4: a jump from frame 10 to frame 20 resets and the frame's
outcome matches a run from an emptied registry. -/
theorem C4_reset_on_discontinuity_witness :
    (resetPhase (⟨[(Track.init 0).addPoint 3 4], 10, 0, 5, none⟩ : TrackerState Int)
        (⟨20, some [], some [], some none⟩ : FrameInputs Int).posFrames).tracks = []
    ∧ (trackFeatures (⟨[(Track.init 0).addPoint 3 4], 10, 0, 5, none⟩ : TrackerState Int)
          (⟨20, some [], some [], some none⟩ : FrameInputs Int)).2.tracks
        = (trackFeatures
            (resetTracks (⟨[(Track.init 0).addPoint 3 4], 10, 0, 5, none⟩ : TrackerState Int))
            (⟨20, some [], some [], some none⟩ : FrameInputs Int)).2.tracks :=
  (C4_reset_on_discontinuity
      (⟨[(Track.init 0).addPoint 3 4], 10, 0, 5, none⟩ : TrackerState Int)
      (⟨20, some [], some [], some none⟩ : FrameInputs Int)).2.1 (by decide)

/-- Spawn-and-extend sequences preserve the length relation between
`velocity` and `points`, and keep `points` nonempty. -/
theorem extendAll_invariant (ops : List (α × α)) :
    ∀ t : Track α, t.velocity.length + 1 = t.points.length → t.points ≠ [] →
      ((t.extendAll ops).velocity.length + 1 = (t.extendAll ops).points.length
        ∧ (t.extendAll ops).points ≠ []) := by
  induction ops with
  | nil => exact fun t h hne => ⟨h, hne⟩
  | cons c ops ih =>
      intro t h hne
      refine ih (t.addPoint c.1 c.2) ?_ ?_
      · rw [Track.addPoint_velocity_length t c.1 c.2 hne, Track.addPoint_points]
        simp only [List.length_append, List.length_cons, List.length_nil]
        omega
      · rw [Track.addPoint_points]
        simp

/-- C2 counterexample: a track spawned with one point, extended once and
then trimmed has one point and one velocity entry, so
`velocity.length = points.length - 1` fails after a trim
(`removeOldest` pops `points[0]` but leaves `velocity` untouched). -/
theorem C2_trim_velocity_counterexample :
    (Track.removeOldest (((Track.init 0).addPoint 0 0).addPoint 1 1 : Track Int)).velocity.length = 1
    ∧ (Track.removeOldest (((Track.init 0).addPoint 0 0).addPoint 1 1 : Track Int)).points.length = 1
    ∧ ¬ ((Track.removeOldest (((Track.init 0).addPoint 0 0).addPoint 1 1 : Track Int)).velocity.length
        = (Track.removeOldest (((Track.init 0).addPoint 0 0).addPoint 1 1 : Track Int)).points.length - 1) := by
  decide

/-- C2 (amended): across any sequence of spawn and extend (`addPoint`)
operations a track satisfies `velocity.length = points.length - 1` with
`points` nonempty; `removeOldest` (trim) removes the front point while
leaving the `velocity` list untouched, so each trim breaks the equality. -/
theorem C2_velocity_invariant :
    (∀ (tid : Nat) (x y : α) (ops : List (α × α)),
        (((Track.init tid).addPoint x y).extendAll ops).velocity.length
            = (((Track.init tid).addPoint x y).extendAll ops).points.length - 1
        ∧ (((Track.init tid).addPoint x y).extendAll ops).points ≠ [])
    ∧ (∀ t : Track α,
        t.removeOldest.velocity = t.velocity ∧ t.removeOldest.points = t.points.tail) := by
  constructor
  · intro tid x y ops
    have base1 : ((Track.init tid).addPoint x y : Track α).velocity.length + 1
        = ((Track.init tid).addPoint x y : Track α).points.length := by
      rw [Track.addPoint_points]
      simp [Track.init, Track.addPoint]
    have base2 : ((Track.init tid).addPoint x y : Track α).points ≠ [] := by
      rw [Track.addPoint_points]
      simp
    obtain ⟨h1, h2⟩ := extendAll_invariant ops _ base1 base2
    exact ⟨by omega, h2⟩
  · exact fun t => ⟨rfl, rfl⟩

/-- Witness for C2 at a concrete spawn-and-extend run. -/
theorem C2_velocity_invariant_witness :
    (((Track.init 0).addPoint 0 0 : Track Int).extendAll [(1, 1), (2, 3)]).velocity.length
        = (((Track.init 0).addPoint 0 0 : Track Int).extendAll [(1, 1), (2, 3)]).points.length - 1
    ∧ (((Track.init 0).addPoint 0 0 : Track Int).extendAll [(1, 1), (2, 3)]).points ≠ [] :=
  C2_velocity_invariant.1 0 0 0 [(1, 1), (2, 3)]

/-- Spawning preserves the "ids are `0, …, n-1` in order" shape of the
registry, because each spawned track receives the current list length as
its id. -/
theorem spawnTracks_ids (cs : List (α × α)) :
    ∀ tracks : List (Track α),
      tracks.map Track.trackId = List.range tracks.length →
      (spawnTracks tracks cs).map Track.trackId
        = List.range (spawnTracks tracks cs).length := by
  induction cs with
  | nil => exact fun tracks h => h
  | cons c cs ih =>
      intro tracks h
      have hstep : spawnTracks tracks (c :: cs)
          = spawnTracks (tracks ++ [(Track.init tracks.length).addPoint c.1 c.2]) cs := rfl
      rw [hstep]
      apply ih
      rw [List.map_append, h, List.length_append]
      simp [Track.addPoint_trackId, Track.init, List.range_succ]

/-- Registry-operation runs preserve the "ids are `0, …, n-1`" shape. -/
theorem applyRegOps_ids (ops : List (RegOp α)) :
    ∀ s : TrackerState α,
      s.tracks.map Track.trackId = List.range s.tracks.length →
      (applyRegOps s ops).tracks.map Track.trackId
        = List.range (applyRegOps s ops).tracks.length := by
  induction ops with
  | nil => exact fun s h => h
  | cons op ops ih =>
      intro s h
      cases op with
      | spawnBatch cs f =>
          refine ih (getNewTracks s (some cs) f) ?_
          show (spawnTracks s.tracks cs).map Track.trackId
              = List.range (spawnTracks s.tracks cs).length
          exact spawnTracks_ids cs s.tracks h
      | resetAll => exact ih (resetTracks s) rfl

/-- C3 counterexample: with `detectionInterval = 1`, spawn two tracks at
frame 0 (ids 0 and 1), let the consistency filter reject track 0 at frame 1
(round-trip discrepancy 5) while keeping track 1, and let the same frame's
detection cycle spawn one corner: the new track receives
`tid = len(self.tracks) = 1`, so the registry holds two live tracks with id
1 — the ids are not pairwise distinct. -/
theorem C3_duplicate_id_counterexample :
    ((processFrame
        (processFrame (TrackerState.init 1 : TrackerState Int)
          ⟨0, some [], some [], some (some [(0, 0), (10, 10)])⟩).2
        ⟨1, some [(⟨0, 0⟩, true), (⟨10, 10⟩, true)], some [⟨5, 5⟩, ⟨10, 10⟩],
          some (some [(20, 20)])⟩).2.tracks.map Track.trackId) = [1, 1]
    ∧ ¬ ((processFrame
        (processFrame (TrackerState.init 1 : TrackerState Int)
          ⟨0, some [], some [], some (some [(0, 0), (10, 10)])⟩).2
        ⟨1, some [(⟨0, 0⟩, true), (⟨10, 10⟩, true)], some [⟨5, 5⟩, ⟨10, 10⟩],
          some (some [(20, 20)])⟩).2.tracks.map Track.trackId).Nodup := by
  decide

/-- C3 (amended): across any sequence of spawn (`getNewTracks`) and
`resetAll` (`resetTracks`) operations the live ids are exactly
`0, …, n-1`, hence pairwise distinct; once filter-removals are interleaved
the property fails, because ids are assigned as the current registry size
and a spawn following a removal can duplicate a live id. -/
theorem C3_unique_ids (interval : Int) (ops : List (RegOp α)) :
    ((applyRegOps (TrackerState.init interval) ops).tracks.map Track.trackId)
        = List.range (applyRegOps (TrackerState.init interval) ops).tracks.length
    ∧ ((applyRegOps (TrackerState.init interval) ops).tracks.map Track.trackId).Nodup := by
  have h := applyRegOps_ids ops (TrackerState.init interval) rfl
  exact ⟨h, by rw [h]; exact List.nodup_range _⟩

/-- Witness for C3 on a concrete spawn/reset/spawn run. -/
theorem C3_unique_ids_witness :
    ((applyRegOps (TrackerState.init 5 : TrackerState Int)
        [RegOp.spawnBatch [(0, 0), (1, 1)] 0, RegOp.resetAll,
          RegOp.spawnBatch [(2, 2)] 3]).tracks.map Track.trackId).Nodup :=
  (C3_unique_ids 5 [RegOp.spawnBatch [(0, 0), (1, 1)] 0, RegOp.resetAll,
      RegOp.spawnBatch [(2, 2)] 3]).2

theorem goodFlags_cons (a b : Point α) (as bs : List (Point α)) :
    goodFlags (a :: as) (b :: bs)
      = decide (discrepancy a b < 1) :: goodFlags as bs := rfl

theorem extendLoop_cons (maxLen : Option Nat) (t : Track α) (p : Point α) (g : Bool)
    (rest : List (Track α × (Point α × Bool))) :
    extendLoop maxLen ((t, p, g) :: rest)
      = if g then extendAndTrim maxLen t p :: extendLoop maxLen rest
        else extendLoop maxLen rest := rfl

/-- The extension loop keeps exactly the tracks whose round-trip discrepancy
is strictly below 1, in their original order, each extended and trimmed. -/
theorem extendLoop_filter (maxLen : Option Nat) :
    ∀ (tracks : List (Track α)) (p1 p0r : List (Point α)),
      p1.length = tracks.length → p0r.length = tracks.length →
      extendLoop maxLen (tracks.zip (p1.zip (goodFlags (tracks.map Track.lastPoint) p0r)))
        = (((tracks.zip p1).zip p0r).filter
            (fun x => decide (discrepancy (Track.lastPoint x.1.1) x.2 < 1))).map
            (fun x => extendAndTrim maxLen x.1.1 x.1.2) := by
  intro tracks
  induction tracks with
  | nil => intro p1 p0r h1 h2; rfl
  | cons t ts ih =>
      intro p1 p0r h1 h2
      cases p1 with
      | nil => simp at h1
      | cons q qs =>
          cases p0r with
          | nil => simp at h2
          | cons r rs =>
              have h1s : qs.length = ts.length := by simpa using h1
              have h2s : rs.length = ts.length := by simpa using h2
              by_cases hd : discrepancy (Track.lastPoint t) r < 1 <;>
                simp [goodFlags_cons, extendLoop_cons, List.filter_cons, hd,
                  ih qs rs h1s h2s]

/-- C1 counterexample: one live track at `(0, 0)`, forward estimate `(0, 0)`
with per-point success flag `false`, round-trip point `(0, 0)` (discrepancy
0).  The claim says a track is kept only if the success flag is true, so
this track should be removed; the code never consults the flag and keeps
it, extending it to two points. -/
theorem C1_flag_ignored_counterexample :
    (trackFeatures (⟨[(Track.init 0).addPoint 0 0], 0, 0, 5, none⟩ : TrackerState Int)
        ⟨1, some [(⟨0, 0⟩, false)], some [⟨0, 0⟩], some none⟩).1 = none
    ∧ ((trackFeatures (⟨[(Track.init 0).addPoint 0 0], 0, 0, 5, none⟩ : TrackerState Int)
        ⟨1, some [(⟨0, 0⟩, false)], some [⟨0, 0⟩], some none⟩).2.tracks.map Track.trackId)
        = [0]
    ∧ ((trackFeatures (⟨[(Track.init 0).addPoint 0 0], 0, 0, 5, none⟩ : TrackerState Int)
        ⟨1, some [(⟨0, 0⟩, false)], some [⟨0, 0⟩], some none⟩).2.tracks.map Track.numPoints)
        = [2] := by
  decide

/-- C1 (amended): a live track is kept by the extension step iff its
round-trip discrepancy `max(|p0.x - p0r.x|, |p0.y - p0r.y|)` is strictly
below the hard-coded threshold 1; the per-point success flags of the motion
estimation are never consulted; discrepancy exactly 1 is rejected; every
rejected track is absent from the new registry (the kept ones appear
filtered in order). -/
theorem C1_keep_iff_discrepancy (maxLen : Option Nat) (tracks : List (Track α))
    (p1 p0r : List (Point α)) (h1 : p1.length = tracks.length)
    (h2 : p0r.length = tracks.length) :
    extendLoop maxLen (tracks.zip (p1.zip (goodFlags (tracks.map Track.lastPoint) p0r)))
        = (((tracks.zip p1).zip p0r).filter
            (fun x => decide (discrepancy (Track.lastPoint x.1.1) x.2 < 1))).map
            (fun x => extendAndTrim maxLen x.1.1 x.1.2)
    ∧ (∀ (s : TrackerState α) (fwd fwd' : List (Point α × Bool)) (q : List (Point α)),
          fwd.map Prod.fst = fwd'.map Prod.fst → keptTracks s fwd q = keptTracks s fwd' q)
    ∧ (∀ p q : Point α, discrepancy p q = 1 → decide (discrepancy p q < 1) = false) := by
  refine ⟨extendLoop_filter maxLen tracks p1 p0r h1 h2, ?_, ?_⟩
  · intro s fwd fwd' q h
    unfold keptTracks
    rw [h]
  · intro p q h
    rw [h]
    exact decide_eq_false (lt_irrefl 1)

/-- Witness for C1 at two concrete tracks: discrepancy 0 is kept,
discrepancy exactly 1 is rejected. -/
theorem C1_keep_iff_discrepancy_witness :
    extendLoop none
        (([(Track.init 0).addPoint 0 0, (Track.init 1).addPoint 5 5] : List (Track Int)).zip
          (([⟨1, 1⟩, ⟨6, 6⟩] : List (Point Int)).zip
            (goodFlags
              (([(Track.init 0).addPoint 0 0, (Track.init 1).addPoint 5 5] :
                  List (Track Int)).map Track.lastPoint)
              ([⟨0, 0⟩, ⟨5, 4⟩] : List (Point Int)))))
      = (((([(Track.init 0).addPoint 0 0, (Track.init 1).addPoint 5 5] :
              List (Track Int)).zip ([⟨1, 1⟩, ⟨6, 6⟩] : List (Point Int))).zip
            ([⟨0, 0⟩, ⟨5, 4⟩] : List (Point Int))).filter
          (fun x => decide (discrepancy (Track.lastPoint x.1.1) x.2 < 1))).map
          (fun x => extendAndTrim none x.1.1 x.1.2) :=
  (C1_keep_iff_discrepancy none
      [(Track.init 0).addPoint 0 0, (Track.init 1).addPoint 5 5]
      [⟨1, 1⟩, ⟨6, 6⟩] [⟨0, 0⟩, ⟨5, 4⟩] (by decide) (by decide)).1

/-- The spawning loop appends the freshly created tracks after the existing
ones. -/
theorem spawnTracks_eq_append (cs : List (α × α)) :
    ∀ tracks : List (Track α),
      spawnTracks tracks cs = tracks ++ spawnFrom tracks.length cs := by
  induction cs with
  | nil => intro tracks; simp [spawnTracks, spawnFrom]
  | cons c cs ih =>
      intro tracks
      have hstep : spawnTracks tracks (c :: cs)
          = spawnTracks (tracks ++ [(Track.init tracks.length).addPoint c.1 c.2]) cs := rfl
      rw [hstep, ih]
      simp [spawnFrom, List.append_assoc]

/-- The ids of the tracks surviving the extension loop form a sublist of the
previous ids: survivors keep their ids and their relative order. -/
theorem extendLoop_ids_sublist (maxLen : Option Nat) :
    ∀ (tracks : List (Track α)) (l : List (Point α × Bool)),
      ((extendLoop maxLen (tracks.zip l)).map Track.trackId).Sublist
        (tracks.map Track.trackId) := by
  intro tracks
  induction tracks with
  | nil => intro l; simp [extendLoop]
  | cons t ts ih =>
      intro l
      cases l with
      | nil => simp [extendLoop]
      | cons p l =>
          obtain ⟨q, g⟩ := p
          rw [List.zip_cons_cons]
          cases g with
          | false =>
              rw [List.map_cons]
              exact (ih l).cons _
          | true =>
              show ((extendAndTrim maxLen t q :: extendLoop maxLen (ts.zip l)).map
                  Track.trackId).Sublist _
              rw [List.map_cons, List.map_cons, extendAndTrim_trackId]
              exact (ih l).cons₂ _

/-- C9: under matching capability output lengths and no discontinuity, the
frame's final registry is the list of surviving extended tracks (whose ids
form a sublist of the previous ids, i.e. survivors keep their relative
order) followed — when the scheduler fires — by the freshly spawned tracks,
appended after all survivors. -/
theorem C9_order_preserved (s : TrackerState α) (inp : FrameInputs α)
    (fwd : List (Point α × Bool)) (p0r : List (Point α)) (cs : Option (List (α × α)))
    (hd : discontinuityCheck s.lastFrameDrawn inp.posFrames = false)
    (hf : inp.fwdResult = some fwd) (hb : inp.bwdResult = some p0r)
    (hc : inp.corners = some cs) :
    (trackFeatures s inp).2.tracks
        = keptTracks s fwd p0r
          ++ (if shouldDetect s.lastDetectionFrame inp.posFrames s.detectionInterval
              then spawnFrom (keptTracks s fwd p0r).length (cs.getD []) else [])
    ∧ ((keptTracks s fwd p0r).map Track.trackId).Sublist (s.tracks.map Track.trackId) := by
  obtain ⟨p, fo, bo, co⟩ := inp
  dsimp only at hd hf hb hc ⊢
  subst hf hb hc
  constructor
  · have hr : resetPhase s p = s := by
      unfold resetPhase
      rw [if_neg (by simp [hd])]
    unfold trackFeatures
    rw [hr]
    dsimp only
    by_cases hts : s.tracks = []
    · have hk : keptTracks s fwd p0r = [] := by
        unfold keptTracks
        rw [hts]
        rfl
      have he : extendPhase s (⟨p, some fwd, some p0r, some cs⟩ : FrameInputs α)
          = (none, s) := by
        unfold extendPhase
        rw [hts]
        rfl
      rw [he]
      unfold detectPhase
      dsimp only
      by_cases hsd : shouldDetect s.lastDetectionFrame p s.detectionInterval = true
      · rw [if_pos hsd, if_pos hsd, hk]
        cases cs with
        | none =>
            show s.tracks = [] ++ spawnFrom ([] : List (Track α)).length []
            rw [hts]
            rfl
        | some l =>
            show (spawnTracks s.tracks l) = [] ++ spawnFrom ([] : List (Track α)).length l
            rw [hts, spawnTracks_eq_append]
      · rw [if_neg hsd, if_neg hsd, hk]
        rw [hts]
        rfl
    · have hlen : s.tracks.length > 0 := List.length_pos.mpr hts
      have he : extendPhase s (⟨p, some fwd, some p0r, some cs⟩ : FrameInputs α)
          = (none, { s with tracks := keptTracks s fwd p0r }) := by
        unfold extendPhase
        rw [if_pos hlen]
      rw [he]
      unfold detectPhase
      dsimp only
      by_cases hsd : shouldDetect s.lastDetectionFrame p s.detectionInterval = true
      · rw [if_pos hsd, if_pos hsd]
        cases cs with
        | none =>
            show keptTracks s fwd p0r
                = keptTracks s fwd p0r ++ spawnFrom (keptTracks s fwd p0r).length []
            simp [spawnFrom]
        | some l =>
            show spawnTracks (keptTracks s fwd p0r) l
                = keptTracks s fwd p0r ++ spawnFrom (keptTracks s fwd p0r).length l
            exact spawnTracks_eq_append l (keptTracks s fwd p0r)
      · rw [if_neg hsd, if_neg hsd]
        simp
  · exact extendLoop_ids_sublist s.maxTrackLength s.tracks _

/-- Witness for C9: one rejected and one kept track plus one spawned corner
at a concrete frame. -/
theorem C9_order_preserved_witness :
    (trackFeatures (⟨[(Track.init 0).addPoint 0 0, (Track.init 1).addPoint 5 5], 0, -1, 5,
          none⟩ : TrackerState Int)
        ⟨1, some [(⟨3, 3⟩, true), (⟨6, 6⟩, true)], some [⟨9, 9⟩, ⟨5, 5⟩],
          some (some [(7, 7)])⟩).2.tracks
      = keptTracks (⟨[(Track.init 0).addPoint 0 0, (Track.init 1).addPoint 5 5], 0, -1, 5,
            none⟩ : TrackerState Int)
          [(⟨3, 3⟩, true), (⟨6, 6⟩, true)] [⟨9, 9⟩, ⟨5, 5⟩]
        ++ (if shouldDetect
              (⟨[(Track.init 0).addPoint 0 0, (Track.init 1).addPoint 5 5], 0, -1, 5,
                  none⟩ : TrackerState Int).lastDetectionFrame
              (⟨1, some [(⟨3, 3⟩, true), (⟨6, 6⟩, true)], some [⟨9, 9⟩, ⟨5, 5⟩],
                  some (some [(7, 7)])⟩ : FrameInputs Int).posFrames
              (⟨[(Track.init 0).addPoint 0 0, (Track.init 1).addPoint 5 5], 0, -1, 5,
                  none⟩ : TrackerState Int).detectionInterval
            then spawnFrom
              (keptTracks (⟨[(Track.init 0).addPoint 0 0, (Track.init 1).addPoint 5 5], 0, -1,
                    5, none⟩ : TrackerState Int)
                [(⟨3, 3⟩, true), (⟨6, 6⟩, true)] [⟨9, 9⟩, ⟨5, 5⟩]).length
              ((some [((7 : Int), (7 : Int))]).getD []) else []) :=
  (C9_order_preserved
      (⟨[(Track.init 0).addPoint 0 0, (Track.init 1).addPoint 5 5], 0, -1, 5,
          none⟩ : TrackerState Int)
      ⟨1, some [(⟨3, 3⟩, true), (⟨6, 6⟩, true)], some [⟨9, 9⟩, ⟨5, 5⟩], some (some [(7, 7)])⟩
      [(⟨3, 3⟩, true), (⟨6, 6⟩, true)] [⟨9, 9⟩, ⟨5, 5⟩] (some [(7, 7)])
      (by decide) rfl rfl rfl).1

theorem resetPhase_fields (s : TrackerState α) (p : Int) :
    (resetPhase s p).lastFrameDrawn = s.lastFrameDrawn
    ∧ (resetPhase s p).lastDetectionFrame = s.lastDetectionFrame
    ∧ (resetPhase s p).detectionInterval = s.detectionInterval
    ∧ (resetPhase s p).maxTrackLength = s.maxTrackLength := by
  unfold resetPhase
  split <;> exact ⟨rfl, rfl, rfl, rfl⟩

theorem extendPhase_fields (s : TrackerState α) (inp : FrameInputs α) :
    ((extendPhase s inp).2).lastFrameDrawn = s.lastFrameDrawn
    ∧ ((extendPhase s inp).2).lastDetectionFrame = s.lastDetectionFrame
    ∧ ((extendPhase s inp).2).detectionInterval = s.detectionInterval := by
  unfold extendPhase
  split
  · cases inp.fwdResult with
    | none => exact ⟨rfl, rfl, rfl⟩
    | some fwd =>
        cases inp.bwdResult with
        | none => exact ⟨rfl, rfl, rfl⟩
        | some b => exact ⟨rfl, rfl, rfl⟩
  · exact ⟨rfl, rfl, rfl⟩

/-- C8 counterexample: one live track, a consecutive frame, motion
estimation succeeds (discrepancy 0, track extended), then the detection
capability raises.  The error propagates, but the registry is NOT in its
pre-frame state: the extension step's effect persists (the surviving track
now has two points). -/
theorem C8_detection_failure_counterexample :
    (processFrame (⟨[(Track.init 0).addPoint 0 0], 0, -1, 5, none⟩ : TrackerState Int)
        ⟨1, some [(⟨1, 1⟩, true)], some [⟨0, 0⟩], none⟩).1 = some CapErr.capabilityFailure
    ∧ (processFrame (⟨[(Track.init 0).addPoint 0 0], 0, -1, 5, none⟩ : TrackerState Int)
        ⟨1, some [(⟨1, 1⟩, true)], some [⟨0, 0⟩], none⟩).2.tracks
        ≠ (⟨[(Track.init 0).addPoint 0 0], 0, -1, 5, none⟩ : TrackerState Int).tracks
    ∧ ((processFrame (⟨[(Track.init 0).addPoint 0 0], 0, -1, 5, none⟩ : TrackerState Int)
        ⟨1, some [(⟨1, 1⟩, true)], some [⟨0, 0⟩], none⟩).2.tracks.map Track.numPoints)
        = [2] := by
  decide

/-- C8 (amended): a failure of the motion-estimation capability (either
direction) aborts the frame with the error and leaves the registry exactly
in its pre-frame state (no extension, trim, removal, or spawn), provided no
discontinuity reset preceded it.  A failure of the detection capability
propagates the error and spawns nothing — `lastDetectionFrame` and
`lastFrameDrawn` keep their pre-frame values — but the extension step's
effects performed earlier in the same frame persist. -/
theorem C8_failure_semantics (s : TrackerState α) (inp : FrameInputs α) :
    (discontinuityCheck s.lastFrameDrawn inp.posFrames = false → s.tracks ≠ [] →
      (inp.fwdResult = none ∨ inp.bwdResult = none) →
      processFrame s inp = (some CapErr.capabilityFailure, s))
    ∧ ((extendPhase (resetPhase s inp.posFrames) inp).1 = none →
        shouldDetect s.lastDetectionFrame inp.posFrames s.detectionInterval = true →
        inp.corners = none →
        processFrame s inp
            = (some CapErr.capabilityFailure, (extendPhase (resetPhase s inp.posFrames) inp).2)
        ∧ (extendPhase (resetPhase s inp.posFrames) inp).2.lastDetectionFrame
            = s.lastDetectionFrame
        ∧ (extendPhase (resetPhase s inp.posFrames) inp).2.lastFrameDrawn
            = s.lastFrameDrawn) := by
  obtain ⟨p, fo, bo, co⟩ := inp
  dsimp only
  constructor
  · intro hd hne hfb
    have hr : resetPhase s p = s := by
      unfold resetPhase
      rw [if_neg (by simp [hd])]
    have hlen : s.tracks.length > 0 := List.length_pos.mpr hne
    have he : extendPhase s (⟨p, fo, bo, co⟩ : FrameInputs α)
        = (some CapErr.capabilityFailure, s) := by
      rcases hfb with h | h
      · subst h
        unfold extendPhase
        rw [if_pos hlen]
      · subst h
        unfold extendPhase
        rw [if_pos hlen]
        cases fo <;> rfl
    unfold processFrame trackFeatures
    rw [hr]
    dsimp only
    rw [he]
  · intro he hsd hc
    subst hc
    have hfield := extendPhase_fields (resetPhase s p) (⟨p, fo, bo, none⟩ : FrameInputs α)
    have hreset := resetPhase_fields s p
    rcases hE : extendPhase (resetPhase s p) (⟨p, fo, bo, none⟩ : FrameInputs α) with ⟨e, s2⟩
    rw [hE] at he hfield
    dsimp only at he hfield
    subst he
    have h2d : s2.lastDetectionFrame = s.lastDetectionFrame := by
      rw [hfield.2.1, hreset.2.1]
    have h2f : s2.lastFrameDrawn = s.lastFrameDrawn := by
      rw [hfield.1, hreset.1]
    have h2i : s2.detectionInterval = s.detectionInterval := by
      rw [hfield.2.2, hreset.2.2.1]
    refine ⟨?_, h2d, h2f⟩
    unfold processFrame trackFeatures
    dsimp only
    rw [hE]
    dsimp only
    unfold detectPhase
    dsimp only
    rw [h2d, h2i, if_pos hsd]

/-- Witness for C8: with one live track and the forward optical-flow call
raising at a consecutive frame, the frame aborts and the state is exactly
the pre-frame state. -/
theorem C8_failure_semantics_witness :
    processFrame (⟨[(Track.init 0).addPoint 0 0], 0, -1, 5, none⟩ : TrackerState Int)
        (⟨1, none, some [], some none⟩ : FrameInputs Int)
      = (some CapErr.capabilityFailure,
          (⟨[(Track.init 0).addPoint 0 0], 0, -1, 5, none⟩ : TrackerState Int)) :=
  (C8_failure_semantics (⟨[(Track.init 0).addPoint 0 0], 0, -1, 5, none⟩ : TrackerState Int)
      (⟨1, none, some [], some none⟩ : FrameInputs Int)).1 (by decide) (by decide) (Or.inl rfl)

end FeatureTracker
